import Mathlib

/-!
Verification of the LampCover video-cover service: a shallow embedding of
the request-processing pipeline of `src/app/api/process/route.ts` and the
secure external-process wrapper `src/lib/ffmpeg-secure.ts`, together with
theorems settling the frozen specification claims.

Conventions of the embedding:
* Byte buffers are `List Nat`; strings are Lean `String`s processed through
  their character lists.
* Timestamps flow through JavaScript `Number`s (IEEE-754 binary64) in the
  source.  The embedding carries the exact decimal value as an unnormalized
  rational (`Rx`) and models the binary64 rounding of `parseFloat` and of
  the product `seekTime * 1000000` explicitly (`roundDouble`, `jsMul`),
  using round-to-nearest, ties-to-even on a 53-bit significand.  All values
  reaching these operations are finite, nonnegative and well inside the
  normal range, so neither infinities, NaNs, subnormals nor negative zero
  can arise; the model therefore omits them.
* External effects (the file-type library, the filesystem, the spawned
  process) are oracle parameters or explicit outcome values.
-/

deriving instance DecidableEq for Except

namespace LampCover

/-! ## Unnormalized exact rationals

`Rx` is an exact rational `num / den` with `den` kept positive by every
constructor used below.  No gcd normalization is performed, so every
operation is plain integer arithmetic and reduces in the kernel. -/

structure Rx where
  num : Int
  den : Nat
  deriving DecidableEq, Repr

def Rx.ofNat (n : Nat) : Rx := ⟨(n : Int), 1⟩

/-- Exact product of two rationals. -/
def Rx.mul (a b : Rx) : Rx := ⟨a.num * b.num, a.den * b.den⟩

/-- Multiply by `2 ^ k` for `k : Int` (exact). -/
def Rx.mulPow2 (a : Rx) (k : Int) : Rx :=
  if 0 ≤ k then ⟨a.num * (2 ^ k.toNat : Nat), a.den⟩
  else ⟨a.num, a.den * 2 ^ (-k).toNat⟩

/-- `a ≤ b` by cross multiplication (dens positive by construction). -/
def Rx.ble (a b : Rx) : Bool := decide (a.num * (b.den : Int) ≤ b.num * (a.den : Int))

/-- `a < b` by cross multiplication (dens positive by construction). -/
def Rx.blt (a b : Rx) : Bool := decide (a.num * (b.den : Int) < b.num * (a.den : Int))

/-- The rational is an integer of absolute value at most `2 ^ 53 - 1`:
exactly JavaScript `Number.isSafeInteger` on a value that is exactly
representable. -/
def Rx.isSafeInteger (a : Rx) : Bool :=
  (a.num.natAbs % a.den == 0) && decide (a.num.natAbs / a.den ≤ 2 ^ 53 - 1)

/-! ## Binary64 rounding, modelled exactly

`roundDouble` sends an exact positive rational to the value of the nearest
IEEE-754 binary64 number (round to nearest, ties to even).  It is used at
the two points where the source performs a lossy `Number` operation on a
non-integer: `Number.parseFloat` of the sanitized timestamp and the
multiplication `seekTime * 1000000` inside `validateNumeric`. -/

/-- Round a nonnegative rational (given as `n / d`, `d > 0`) to the nearest
natural number, ties to even. -/
def roundHalfEvenPos (n d : Nat) : Nat :=
  let f := n / d
  let r2 := 2 * (n % d)
  if r2 < d then f
  else if d < r2 then f + 1
  else if f % 2 == 0 then f else f + 1

/-- Binary exponent search: returns `e` with `2 ^ e ≤ a < 2 ^ (e + 1)` for
positive `a`, by fuelled doubling/halving (fuel 400 covers every magnitude
reachable in this development). -/
def dexpAux : Nat → Rx → Int → Int
  | 0, _, e => e
  | fuel + 1, a, e =>
    if a.blt ⟨1, 1⟩ then dexpAux fuel ⟨a.num * 2, a.den⟩ (e - 1)
    else if Rx.ble ⟨2, 1⟩ a then dexpAux fuel ⟨a.num, a.den * 2⟩ (e + 1)
    else e

def dexp (a : Rx) : Int := dexpAux 400 a 0

/-- The value `m * 2 ^ k` as an `Rx`. -/
def Rx.ofNatMulPow2 (m : Nat) (k : Int) : Rx :=
  if 0 ≤ k then ⟨(m * 2 ^ k.toNat : Nat), 1⟩ else ⟨(m : Int), 2 ^ (-k).toNat⟩

/-- Exact value of the binary64 nearest to the rational `a` (nonpositive
inputs, which do not occur on the modelled paths, collapse to zero). -/
def roundDouble (a : Rx) : Rx :=
  if a.num ≤ 0 then ⟨0, 1⟩
  else
    let e := dexp a
    let scaled := a.mulPow2 (52 - e)
    let m := roundHalfEvenPos scaled.num.toNat scaled.den
    Rx.ofNatMulPow2 m (e - 52)

/-- Binary64 multiplication: exact product, then one rounding. -/
def jsMul (x y : Rx) : Rx := roundDouble (x.mul y)

end LampCover

namespace LampCover

/-! ## Timestamp validation (route.ts lines 226-251)

The handler takes the raw form value, strips every character that is not a
digit or `.` (the regex replace on line 231), matches the stripped string
against `^\d+(\.\d{1,6})?$` (line 234), parses it with `Number.parseFloat`
(line 239), range-checks the value (line 242) and finally re-serializes it
and compares against the stripped string (line 247).

Faithfulness of the exact-rational rendering of the two `Number`
operations used below:
* every string passing the format check has at most six fraction digits,
  and every string reaching the comparisons on lines 242 and 247 has value
  at most a little above 86400, hence at most 11 significant digits;
* decimal strings of at most 15 significant digits survive the round trip
  decimal → binary64 → shortest-representation, so `parseFloat(s).toString()`
  is exactly the canonical decimal form of `s`, and
  `parseFloat(s).toFixed(6)` is exactly `s` padded to six fraction digits
  (the binary64 error, below `86400 * 2 ^ -52 < 2 * 10 ^ -11`, cannot move
  either rendering);
* comparisons of `parseFloat(s)` against the binary64 integers `0` and
  `86400` agree with exact comparisons of the decimal value of `s`, because
  any decimal with at most six fraction digits lying strictly beyond the
  bound differs from it by at least `10 ^ -6`, far above the rounding
  error. -/

def isDigitDot (c : Char) : Bool := c.isDigit || c == '.'

/-- `timestampRaw.replace(/[^\d.]/g, '')` (route.ts line 231). -/
def sanitizeTimestamp (raw : String) : List Char := raw.data.filter isDigitDot

/-- The anchored pattern `^\d+(\.\d{1,6})?$` (route.ts line 234): on
success returns the integer digits and the (possibly empty) fraction
digits. -/
def tsFormatParse (l : List Char) : Option (List Char × List Char) :=
  let ip := l.takeWhile Char.isDigit
  let rest := l.drop ip.length
  if ip.isEmpty then none
  else
    match rest with
    | [] => some (ip, [])
    | c :: fr =>
      if c == '.' && fr.all Char.isDigit && decide (1 ≤ fr.length) && decide (fr.length ≤ 6)
      then some (ip, fr) else none

def digitsToNat (l : List Char) : Nat :=
  l.foldl (fun n c => 10 * n + (c.toNat - 48)) 0

/-- Exact decimal value of `ip . fr`. -/
def decimalValue (ip fr : List Char) : Rx :=
  ⟨(digitsToNat (ip ++ fr) : Int), 10 ^ fr.length⟩

/-- Integer digits with leading zeros dropped (at least one digit kept). -/
def dropLeadZeros (l : List Char) : List Char :=
  match l.dropWhile (· == '0') with
  | [] => ['0']
  | r => r

/-- Fraction digits with trailing zeros dropped. -/
def dropTrailZeros (l : List Char) : List Char :=
  (l.reverse.dropWhile (· == '0')).reverse

/-- JavaScript `Number.prototype.toString` on `parseFloat(ip "." fr)`:
the canonical decimal rendering of the exact value (see the faithfulness
note above). -/
def jsToString (ip fr : List Char) : List Char :=
  dropLeadZeros ip ++
    (match dropTrailZeros fr with
     | [] => []
     | f => '.' :: f)

/-- JavaScript `toFixed(6)` on the same value: exactly six fraction
digits. -/
def jsToFixed6 (ip fr : List Char) : List Char :=
  dropLeadZeros ip ++ '.' :: (fr ++ List.replicate (6 - fr.length) '0')

/-- The replace `/\.?0+$/` applied on line 247 to the `toFixed(6)` string:
drops the maximal run of trailing zeros, together with the `.` when the
whole fraction was zeros. -/
def stripTrailZeroDot (l : List Char) : List Char :=
  let l1 := (l.reverse.dropWhile (· == '0')).reverse
  match l1.getLast? with
  | some '.' => l1.dropLast
  | _ => l1

/-- Outcome of the timestamp block: either an HTTP-400 body or the exact
parsed value. -/
def routeTimestamp (raw : String) : Except String Rx :=
  let sanitized := sanitizeTimestamp raw
  match tsFormatParse sanitized with
  | none => .error "Invalid timestamp format"
  | some (ip, fr) =>
    let v := decimalValue ip fr
    if v.blt ⟨0, 1⟩ || Rx.blt ⟨86400, 1⟩ v then .error "Invalid timestamp range"
    else if jsToString ip fr ≠ sanitized ∧ stripTrailZeroDot (jsToFixed6 ip fr) ≠ sanitized
    then .error "Timestamp validation failed"
    else .ok v

end LampCover

namespace LampCover

/-! ## HTTP responses and error classification -/

/-- The observable part of a handler response: status, body text, and the
`Retry-After` header in seconds when present. -/
structure HttpResp where
  status : Nat
  body : String
  retryAfter : Option Nat
  deriving DecidableEq, Repr

/-- Substring test, JavaScript `String.prototype.includes`. -/
def containsSub (hay pat : List Char) : Bool :=
  hay.tails.any fun t => pat.isPrefixOf t

/-- The catch block of the orchestrator (route.ts lines 366-382): an error
message is classified by substring into 408 / 400 / 400 / 500. -/
def classifyErrorResp (msg : String) : HttpResp :=
  if containsSub msg.data "timeout".data then ⟨408, "Processing timeout", none⟩
  else if containsSub msg.data "Invalid".data then ⟨400, "Invalid video format", none⟩
  else if containsSub msg.data "No such file".data then ⟨400, "File processing error", none⟩
  else ⟨500, "Processing error", none⟩

/-- The message of the rejection produced by `executeFFmpeg` when the
timeout timer fires and the subprocess is killed
(ffmpeg-secure.ts line 131). -/
def executeFFmpegTimeoutMsg : String := "FFmpeg operation timed out"

/-! ## Numeric validation of the secure wrapper (ffmpeg-secure.ts) -/

/-- `validateNumeric(value, min, max)` (ffmpeg-secure.ts lines 59-61):
`Number.isFinite(value) && !Number.isNaN(value) && value >= min &&
value <= max && Number.isSafeInteger(value * 1000000)`.  The `value`
argument is a binary64 value (here its exact rational), so finiteness and
non-NaN hold by construction of the model; the product performs one
binary64 rounding. -/
def validateNumeric (value mn mx : Rx) : Bool :=
  mn.ble value && value.ble mx && (jsMul value ⟨1000000, 1⟩).isSafeInteger

/-- The message thrown by `extractFrame` when the seek-time precondition
fails (ffmpeg-secure.ts line 164). -/
def invalidSeekMsg : String := "Invalid seek time - must be between 0 and 86400 seconds"

/-- `extractFrame`'s numeric gate on the seek time (ffmpeg-secure.ts line
163): the binary64 seek value must satisfy `validateNumeric(seekTime, 0,
86400)`.  The orchestrator hands over `Math.max(0, Math.min(ts, 86400))`,
the identity on the already range-checked value. -/
def extractFrameSeekOk (seek : Rx) : Bool := validateNumeric seek ⟨0, 1⟩ ⟨86400, 1⟩

end LampCover

namespace LampCover

/-!
Claim C1.  The claim (and the repository's own `test-security.js`, cases
`'-1'` and the command-injection strings) requires `"-1"` and
`"10;rm -rf /"` to be rejected; the code instead strips the offending
characters and accepts the remainder, because the anti-smuggling
comparison on route.ts line 247 compares the re-serialized number against
the *sanitized* string rather than the original raw string.
-/

/-- C1: evaluation of the timestamp validator at the six claim strings.
`"86400"` is accepted, `"86400.0000001"`, `"86401"`, `"10.5.5"` are
rejected as claimed, but `"-1"` is accepted with value 1 and
`"10;rm -rf /"` is accepted with value 10, contradicting the claim and the
repository's own security test expectations. -/
theorem C1_timestamp_validation_eval :
    routeTimestamp "86400" = .ok ⟨86400, 1⟩ ∧
    routeTimestamp "86400.0000001" = .error "Invalid timestamp format" ∧
    routeTimestamp "86401" = .error "Invalid timestamp range" ∧
    routeTimestamp "10.5.5" = .error "Invalid timestamp format" ∧
    routeTimestamp "-1" = .ok ⟨1, 1⟩ ∧
    routeTimestamp "10;rm -rf /" = .ok ⟨10, 1⟩ := by
  decide

/-!
Claim C10.  The claim's example `"0.1"` does not exhibit the failure: the
binary64 product `0.1 * 1000000` rounds to exactly `100000`, so
`Number.isSafeInteger` holds and `extractFrame` proceeds.  The existential
part of the claim is nevertheless true: `"8271.26746"` passes the full
timestamp validation, yet `8271.26746 * 1000000` rounds to
`8673052548136959 / 2 ^ 20`, not an integer, so `extractFrame` throws the
invalid-seek error and the orchestrator classifies it (substring
`"Invalid"`) as HTTP 400.
-/

/-- C10 counterexample: for the claim's example `"0.1"` the safe-integer
precondition in fact holds (`0.1 * 1000000` rounds to exactly `100000`),
so `extractFrame` does not throw on it. -/
theorem C10_example_0_1_passes :
    routeTimestamp "0.1" = .ok ⟨1, 10⟩ ∧
    extractFrameSeekOk (roundDouble ⟨1, 10⟩) = true := by
  decide

/-- C10 (amended): there is a timestamp string accepted by the full upload
validation — `"8271.26746"`, value in `[0, 86400]` — on which
`extractFrame`'s numeric precondition `Number.isSafeInteger(seekTime *
1000000)` fails in binary64 arithmetic, so the request fails with HTTP 400
despite carrying a spec-valid timestamp. -/
theorem C10_safe_integer_gap :
    routeTimestamp "8271.26746" = .ok ⟨827126746, 100000⟩ ∧
    Rx.ble ⟨0, 1⟩ ⟨827126746, 100000⟩ = true ∧
    Rx.ble ⟨827126746, 100000⟩ ⟨86400, 1⟩ = true ∧
    extractFrameSeekOk (roundDouble ⟨827126746, 100000⟩) = false ∧
    (classifyErrorResp invalidSeekMsg).status = 400 := by
  decide

end LampCover

namespace LampCover

/-! ## Content sniffer (route.ts `isValidVideoFile`, lines 118-189)

The handler first consults the general-purpose `file-type` library (an
external collaborator, modelled as the oracle `detected : Option String`)
and short-circuits to valid when the detected MIME is in the allow-list;
otherwise it falls back to manual magic-number checks. -/

/-- `bytesAt(offset, sequence)` helper (lines 120-125). -/
def bytesAt (b : List Nat) (off : Nat) (seq : List Nat) : Bool :=
  Nat.ble (off + seq.length) b.length &&
  ((List.range seq.length).all fun i => b.getD (off + i) 0 == seq.getD i 0)

def supportedMimes : List String :=
  ["video/mp4", "video/quicktime", "video/x-msvideo", "video/mpeg"]

def ftypMarker : List Nat := [0x66, 0x74, 0x79, 0x70]

def validBrands : List (List Nat) :=
  [[0x69, 0x73, 0x6F, 0x6D], [0x6D, 0x70, 0x34, 0x31],
   [0x6D, 0x70, 0x34, 0x32], [0x71, 0x74, 0x20, 0x20]]

/-- `brandBytes.every((byte, i) => byte === brand[i])` (line 155). -/
def brandMatches (bb brand : List Nat) : Bool :=
  bb.enum.all fun p => p.2 == brand.getD p.1 0

/-- ISO-base-media branch (lines 144-159): `ftyp` marker at offset 4 and
brand bytes at `[8..12)` equal to one of the four allow-listed brands. -/
def ftypCheck (b : List Nat) : Bool :=
  Nat.ble 8 b.length && bytesAt b 4 ftypMarker &&
  validBrands.any fun brand => brandMatches ((b.drop 8).take 4) brand

/-- MPEG program stream branch (lines 162-164). -/
def psCheck (b : List Nat) : Bool :=
  Nat.ble 4 b.length && bytesAt b 0 [0x00, 0x00, 0x01, 0xBA]

/-- Sync-byte count of the transport-stream branch (lines 169-174): the
loop visits `i = 188 k` while `i < min(length, 1880)`. -/
def countSyncBytes (b : List Nat) : Nat :=
  ((List.range 10).filter fun k =>
    Nat.blt (188 * k) (min b.length 1880) && (b.getD (188 * k) 0 == 0x47)).length

/-- MPEG transport stream branch (lines 166-179): length at least 376,
first byte `0x47`, and at least 3 sync bytes on the 188-byte strides. -/
def tsCheck (b : List Nat) : Bool :=
  Nat.ble 376 b.length && (b.getD 0 0 == 0x47) && Nat.ble 3 (countSyncBytes b)

/-- RIFF/AVI branch (lines 182-186). -/
def aviCheck (b : List Nat) : Bool :=
  Nat.ble 12 b.length && bytesAt b 0 [0x52, 0x49, 0x46, 0x46] &&
  bytesAt b 8 [0x41, 0x56, 0x49, 0x20]

/-- The manual magic-number fallback: first match wins. -/
def manualVideoCheck (b : List Nat) : Bool :=
  ftypCheck b || psCheck b || tsCheck b || aviCheck b

/-- Full sniffer with the file-type library oracle. -/
def isValidVideoFile (detected : Option String) (b : List Nat) : Bool :=
  (match detected with
   | some m => supportedMimes.contains m
   | none => false) || manualVideoCheck b

/-- The claim's `ftyp`/`isom` example buffer. -/
def ftypIsomBuf : List Nat :=
  [0x00, 0x00, 0x00, 0x18, 0x66, 0x74, 0x79, 0x70, 0x69, 0x73, 0x6F, 0x6D]

/-- A buffer of the same size filled with printable text (`'A'`). -/
def textBuf : List Nat := List.replicate 12 0x41

/-- Length-400 buffer whose only `0x47` is the first byte. -/
def tsOnlyFirstSync : List Nat := 0x47 :: List.replicate 399 0x00

/-- Length-400 buffer with `0x47` at strides 0, 188 and 376. -/
def tsThreeSyncs : List Nat :=
  0x47 :: (List.replicate 187 0x00 ++
    0x47 :: (List.replicate 187 0x00 ++ 0x47 :: List.replicate 23 0x00))

end LampCover

namespace LampCover

/-!
Claim C8.  The sniffer accepts the `ftyp`/`isom` example buffer under every
library verdict, rejects a same-size printable-text buffer whenever the
library does not (incorrectly) report a supported video MIME for it, the
manual `ftyp` branch accepts exactly the four allow-listed brands, and the
transport-stream branch needs three sync bytes on the 188-byte strides,
not merely the first byte.
-/

set_option maxRecDepth 4000 in
/-- C8: content sniffer behaviour.  (1) A buffer starting
`00 00 00 18 66 74 79 70 69 73 6F 6D` is classified supported for every
file-type-library verdict; (2) a same-size printable-text buffer is
classified unsupported whenever the library verdict is not an allow-listed
video MIME; (3) with the `ftyp` marker present, the manual check accepts
exactly the brands `isom`, `mp41`, `mp42`, `qt  `; (4) a 400-byte buffer
whose only sync byte is its first is rejected, while one with sync bytes
at offsets 0, 188 and 376 is accepted. -/
theorem C8_content_sniffer :
    (∀ detected : Option String, isValidVideoFile detected ftypIsomBuf = true) ∧
    (∀ detected : Option String,
      (∀ m, detected = some m → supportedMimes.contains m = false) →
      isValidVideoFile detected textBuf = false) ∧
    (∀ b8 b9 b10 b11 : Nat,
      manualVideoCheck [0x00, 0x00, 0x00, 0x18, 0x66, 0x74, 0x79, 0x70, b8, b9, b10, b11] = true ↔
        ([b8, b9, b10, b11] = [0x69, 0x73, 0x6F, 0x6D] ∨
         [b8, b9, b10, b11] = [0x6D, 0x70, 0x34, 0x31] ∨
         [b8, b9, b10, b11] = [0x6D, 0x70, 0x34, 0x32] ∨
         [b8, b9, b10, b11] = [0x71, 0x74, 0x20, 0x20])) ∧
    manualVideoCheck tsOnlyFirstSync = false ∧
    manualVideoCheck tsThreeSyncs = true := by
  refine ⟨?_, ?_, ?_, by decide, by decide⟩
  · intro detected
    cases detected with
    | none => decide
    | some m =>
      have h : manualVideoCheck ftypIsomBuf = true := by decide
      simp [isValidVideoFile, h]
  · intro detected h
    cases detected with
    | none => decide
    | some m =>
      have hm := h m rfl
      have h2 : manualVideoCheck textBuf = false := by decide
      simp only [isValidVideoFile]
      rw [hm, h2]
      rfl
  · intro b8 b9 b10 b11
    simp [manualVideoCheck, ftypCheck, psCheck, tsCheck, aviCheck, bytesAt, countSyncBytes,
      brandMatches, validBrands, ftypMarker, List.range_succ, List.enum, supportedMimes]

/-- C8 witness: the sniffer facts instantiated at concrete inputs. -/
theorem C8_content_sniffer_witness :
    isValidVideoFile (some "text/plain") ftypIsomBuf = true ∧
    isValidVideoFile none textBuf = false ∧
    (manualVideoCheck [0x00, 0x00, 0x00, 0x18, 0x66, 0x74, 0x79, 0x70, 0x69, 0x73, 0x6F, 0x6D] = true ↔
      ([(0x69 : Nat), 0x73, 0x6F, 0x6D] = [0x69, 0x73, 0x6F, 0x6D] ∨
       [(0x69 : Nat), 0x73, 0x6F, 0x6D] = [0x6D, 0x70, 0x34, 0x31] ∨
       [(0x69 : Nat), 0x73, 0x6F, 0x6D] = [0x6D, 0x70, 0x34, 0x32] ∨
       [(0x69 : Nat), 0x73, 0x6F, 0x6D] = [0x71, 0x74, 0x20, 0x20])) :=
  ⟨C8_content_sniffer.1 (some "text/plain"),
   C8_content_sniffer.2.1 none (fun _ hm => Option.noConfusion hm),
   C8_content_sniffer.2.2.1 0x69 0x73 0x6F 0x6D⟩

end LampCover

namespace LampCover

/-! ## Filename handling and the upload validator (route.ts lines 217-318)

The validator mirrors the exact source order: missing file, missing/empty
timestamp field, timestamp format, timestamp range, timestamp round-trip,
size, declared MIME type, file extension, content sniff, empty filename,
path traversal.  The timestamp block (lines 226-251) precedes the size
check (line 258); the traversal check (line 287) follows the content sniff
(line 276). -/

/-- Character class `[a-zA-Z0-9._-]` of the sanitizer regex (line 293). -/
def safeFilenameChar (c : Char) : Bool :=
  c.isAlpha || c.isDigit || c == '.' || c == '_' || c == '-'

/-- One step of `replace(/[^a-zA-Z0-9._-]/g, '_')`. -/
def replChar (c : Char) : Char := if safeFilenameChar c then c else '_'

/-- `replace(/\.+$/, '')`: drop the trailing run of dots. -/
def dropTrailingDots (l : List Char) : List Char :=
  (l.reverse.dropWhile (· == '.')).reverse

/-- Filename sanitization (route.ts lines 292-297): replace unsafe
characters by `_`, truncate to 100 characters, strip leading and trailing
dots, and fall back to `"video"` when the result is empty. -/
def sanitizeCore (name : String) : List Char :=
  dropTrailingDots (((name.data.map replChar).take 100).dropWhile (· == '.'))

def sanitizeFilename (name : String) : String :=
  if (sanitizeCore name).isEmpty then "video" else ⟨sanitizeCore name⟩

/-- Path-traversal test (route.ts line 287): the name contains `..`, `/`
or `\`. -/
def hasTraversal (name : String) : Bool :=
  containsSub name.data "..".data || containsSub name.data "/".data ||
  containsSub name.data "\\".data

/-- `path.extname(name).toLowerCase()` (route.ts line 268), POSIX rules:
the extension starts at the last `.` of the portion after the last `/`,
except when that dot is the leading character (dotfile), in which case the
extension is empty.  (For the degenerate basename `".."` Node returns `""`
while this model returns `"."`; both fail the extension allow-list, so the
pipeline is unaffected.) -/
def extnameLower (p : String) : String :=
  let base := (p.data.reverse.takeWhile (fun c => c ≠ '/')).reverse
  let revPre := base.reverse.takeWhile (fun c => c ≠ '.')
  if revPre.length = base.length then ""
  else if base.length = revPre.length + 1 then ""
  else ⟨('.' :: revPre.reverse).map Char.toLower⟩

def MAX_FILE_SIZE : Nat := 100 * 1024 * 1024

def ALLOWED_TYPES : List String :=
  ["video/mp4", "video/mpeg", "video/quicktime", "video/x-msvideo"]

def ALLOWED_EXTENSIONS : List String := [".mp4", ".mov", ".mpeg", ".mpg", ".avi"]

/-- MIME to input-extension lookup (route.ts lines 302-307), default
`"mp4"`. -/
def extFromType (t : String) : String :=
  if t == "video/mp4" then "mp4"
  else if t == "video/quicktime" then "mov"
  else if t == "video/mpeg" then "mpg"
  else "mp4"

/-- An uploaded `File`: name, declared MIME type, size, and content. -/
structure UploadedFile where
  name : String
  type : String
  size : Nat
  content : List Nat
  deriving DecidableEq, Repr

/-- A request as seen by the validation section of the handler, with the
file-type-library verdict on the content as an oracle field. -/
structure UploadRequest where
  video : Option UploadedFile
  timestampRaw : Option String
  detectedMime : Option String
  deriving DecidableEq, Repr

/-- The data flowing out of a fully successful validation pass. -/
structure ValidatedUpload where
  timestamp : Rx
  sanitizedFilename : String
  inputExt : String
  deriving DecidableEq, Repr

/-- The validation section of `POST` (route.ts lines 217-297), in source
order with fail-fast semantics.  (An empty `timestamp` form value is falsy
in JavaScript and takes the missing-timestamp branch.) -/
def validateRequest (r : UploadRequest) : Except HttpResp ValidatedUpload :=
  match r.video with
  | none => .error ⟨400, "Missing file", none⟩
  | some video =>
    match r.timestampRaw with
    | none => .error ⟨400, "Missing or invalid timestamp", none⟩
    | some raw =>
      if raw == "" then .error ⟨400, "Missing or invalid timestamp", none⟩
      else
        match routeTimestamp raw with
        | .error msg => .error ⟨400, msg, none⟩
        | .ok ts =>
          if MAX_FILE_SIZE < video.size then
            .error ⟨413, "File too large. Maximum size is 100MB.", none⟩
          else if !(ALLOWED_TYPES.contains video.type) then
            .error ⟨400, "Invalid file type", none⟩
          else if !(ALLOWED_EXTENSIONS.contains (extnameLower video.name)) then
            .error ⟨400, "Invalid file extension", none⟩
          else if !(isValidVideoFile r.detectedMime video.content) then
            .error ⟨400, "Invalid or unsupported video file content.", none⟩
          else if video.name == "" then
            .error ⟨400, "Invalid filename", none⟩
          else if hasTraversal video.name then
            .error ⟨400, "Invalid filename - path traversal detected", none⟩
          else
            .ok ⟨ts, sanitizeFilename video.name, extFromType video.type⟩

end LampCover

namespace LampCover

/-! Helper lemmas about the sanitization chain. -/

theorem dropWhile_head_false {p : Char → Bool} {l : List Char} {a : Char} {as : List Char}
    (h : l.dropWhile p = a :: as) : p a = false := by
  induction l with
  | nil => simp [List.dropWhile] at h
  | cons x xs ih =>
    rw [List.dropWhile_cons] at h
    by_cases hx : p x = true
    · rw [if_pos hx] at h
      exact ih h
    · rw [if_neg hx] at h
      cases h
      exact Bool.not_eq_true _ ▸ hx

theorem dropTrailingDots_sublist (l : List Char) : List.Sublist (dropTrailingDots l) l := by
  unfold dropTrailingDots
  have h : List.Sublist (l.reverse.dropWhile (· == '.')) l.reverse :=
    List.dropWhile_sublist _
  simpa using h.reverse

theorem dropTrailingDots_isPre (l : List Char) : ∃ t, dropTrailingDots l ++ t = l := by
  unfold dropTrailingDots
  have hsuf : List.IsSuffix (l.reverse.dropWhile (· == '.')) l.reverse :=
    List.dropWhile_suffix _
  have h := List.reverse_prefix.mpr hsuf
  rw [List.reverse_reverse] at h
  exact h

theorem sanitizeCore_safe {name : String} {c : Char} (hc : c ∈ sanitizeCore name) :
    safeFilenameChar c = true := by
  have h1 : c ∈ ((name.data.map replChar).take 100).dropWhile (· == '.') :=
    (dropTrailingDots_sublist _).subset hc
  have h2 : c ∈ (name.data.map replChar).take 100 :=
    (List.dropWhile_sublist _).subset h1
  have h3 : c ∈ name.data.map replChar := List.take_subset _ _ h2
  obtain ⟨d, _, hd⟩ := List.mem_map.mp h3
  subst hd
  unfold replChar
  by_cases hs : safeFilenameChar d = true
  · rwa [if_pos hs]
  · rw [if_neg hs]
    decide

theorem sanitizeCore_len {name : String} : (sanitizeCore name).length ≤ 100 := by
  have h1 : (sanitizeCore name).length ≤
      (((name.data.map replChar).take 100).dropWhile (· == '.')).length :=
    (dropTrailingDots_sublist _).length_le
  have h2 : (((name.data.map replChar).take 100).dropWhile (· == '.')).length ≤
      ((name.data.map replChar).take 100).length :=
    (List.dropWhile_sublist _).length_le
  have h3 : ((name.data.map replChar).take 100).length ≤ 100 := by
    rw [List.length_take]
    exact Nat.min_le_left _ _
  omega

theorem sanitizeCore_head {name : String} {a : Char} {as : List Char}
    (h : sanitizeCore name = a :: as) : a ≠ '.' := by
  obtain ⟨t, ht⟩ := dropTrailingDots_isPre
    (((name.data.map replChar).take 100).dropWhile (· == '.'))
  rw [show dropTrailingDots (((name.data.map replChar).take 100).dropWhile (· == '.')) =
        sanitizeCore name from rfl, h] at ht
  have hhead : ((name.data.map replChar).take 100).dropWhile (· == '.') = a :: (as ++ t) := by
    rw [← ht]
    rfl
  have := dropWhile_head_false hhead
  simpa using this

theorem sanitizeCore_last {name : String} {a : Char} {as : List Char}
    (h : (sanitizeCore name).reverse = a :: as) : a ≠ '.' := by
  have hrev : (sanitizeCore name).reverse =
      ((((name.data.map replChar).take 100).dropWhile (· == '.')).reverse).dropWhile (· == '.') := by
    unfold sanitizeCore dropTrailingDots
    rw [List.reverse_reverse]
  rw [hrev] at h
  have := dropWhile_head_false h
  simpa using this

end LampCover

namespace LampCover

/-!
Claim C9.  Path-traversal names are rejected with HTTP 400 even with an
allow-listed extension, and the sanitized output name is drawn from
`[A-Za-z0-9._-]`, is at most 100 characters, has no leading or trailing
dot, and is never empty.
-/

/-- C9: `"../../evil.mp4"` (allow-listed extension `.mp4`) is rejected
with the path-traversal 400 response, and for every accepted filename the
sanitized name contains only characters in `[A-Za-z0-9._-]`, is at most
100 characters long, is non-empty (default `"video"`), and has neither a
leading nor a trailing dot. -/
theorem C9_filename_sanitization :
    validateRequest ⟨some ⟨"../../evil.mp4", "video/mp4", 1000, ftypIsomBuf⟩, some "10", none⟩ =
      .error ⟨400, "Invalid filename - path traversal detected", none⟩ ∧
    ALLOWED_EXTENSIONS.contains (extnameLower "../../evil.mp4") = true ∧
    ∀ name : String,
      (∀ c ∈ (sanitizeFilename name).data, safeFilenameChar c = true) ∧
      (sanitizeFilename name).length ≤ 100 ∧
      sanitizeFilename name ≠ "" ∧
      (sanitizeFilename name).data.headD 'x' ≠ '.' ∧
      (sanitizeFilename name).data.getLastD 'x' ≠ '.' := by
  refine ⟨by decide, by decide, ?_⟩
  intro name
  by_cases h : (sanitizeCore name).isEmpty
  · rw [sanitizeFilename, if_pos h]
    refine ⟨?_, ?_, ?_, ?_, ?_⟩ <;> decide
  · rw [sanitizeFilename, if_neg h]
    have hne : sanitizeCore name ≠ [] := by
      intro hnil
      rw [hnil] at h
      exact h rfl
    refine ⟨fun c hc => sanitizeCore_safe hc, sanitizeCore_len, ?_, ?_, ?_⟩
    · intro heq
      have : (String.mk (sanitizeCore name)).data = ("" : String).data := by rw [heq]
      exact hne this
    · cases hsc : sanitizeCore name with
      | nil => exact absurd hsc hne
      | cons a as => exact sanitizeCore_head hsc
    · cases hrev : (sanitizeCore name).reverse with
      | nil =>
        exact absurd (by simpa using congrArg List.reverse hrev) hne
      | cons b bs =>
        have hlast : (sanitizeCore name).getLast? = some b := by
          rw [← List.head?_reverse, hrev]
          rfl
        show (sanitizeCore name).getLastD 'x' ≠ '.'
        rw [List.getLastD_eq_getLast?, hlast]
        exact sanitizeCore_last hrev

/-- C9 witness: the sanitization facts instantiated at a concrete name
with unsafe characters. -/
theorem C9_filename_sanitization_witness :
    safeFilenameChar 's' = true ∧
    (sanitizeFilename "special chars!.MOV").length ≤ 100 ∧
    sanitizeFilename "special chars!.MOV" ≠ "" :=
  ⟨(C9_filename_sanitization.2.2 "special chars!.MOV").1 's' (by decide),
   (C9_filename_sanitization.2.2 "special chars!.MOV").2.1,
   (C9_filename_sanitization.2.2 "special chars!.MOV").2.2.1⟩

end LampCover

namespace LampCover

/-!
Claim C4.  The claim asserts the order: size, MIME, extension, traversal,
sniff, timestamp.  The source applies the whole timestamp block (lines
226-251) before the size check (line 258), and the traversal check (line
287) after the content sniff (line 276).  In particular an oversized file
with a malformed timestamp is rejected 400 (timestamp), not 413.
-/

/-- C4 counterexample: a request whose file exceeds 100 MiB and whose
timestamp is malformed is rejected with the timestamp-format reason
(HTTP 400), not with 413 as the claim requires. -/
theorem C4_size_vs_timestamp_counterexample :
    validateRequest ⟨some ⟨"video.mp4", "video/mp4", 104857601, ftypIsomBuf⟩, some "abc", none⟩ =
      .error ⟨400, "Invalid timestamp format", none⟩ ∧
    validateRequest ⟨some ⟨"video.mp4", "video/mp4", 104857601, ftypIsomBuf⟩, some "abc", none⟩ ≠
      .error ⟨413, "File too large. Maximum size is 100MB.", none⟩ := by
  decide

/-- C4 (amended): the checks are applied in the source order — timestamp
(format, range, round-trip), then size, declared MIME type, extension,
content sniff, filename validity, path traversal — failing fast with the
first failing reason; an oversized file with a malformed timestamp gets
the timestamp reason. -/
theorem C4_validation_order :
    (∀ (f : UploadedFile) (det : Option String) (raw msg : String), raw ≠ "" →
      routeTimestamp raw = .error msg →
      validateRequest ⟨some f, some raw, det⟩ = .error ⟨400, msg, none⟩) ∧
    (∀ (f : UploadedFile) (det : Option String) (raw : String) (ts : Rx), raw ≠ "" →
      routeTimestamp raw = .ok ts → MAX_FILE_SIZE < f.size →
      validateRequest ⟨some f, some raw, det⟩ =
        .error ⟨413, "File too large. Maximum size is 100MB.", none⟩) ∧
    (∀ (f : UploadedFile) (det : Option String) (raw : String) (ts : Rx), raw ≠ "" →
      routeTimestamp raw = .ok ts → f.size ≤ MAX_FILE_SIZE →
      ALLOWED_TYPES.contains f.type = false →
      validateRequest ⟨some f, some raw, det⟩ = .error ⟨400, "Invalid file type", none⟩) ∧
    (∀ (f : UploadedFile) (det : Option String) (raw : String) (ts : Rx), raw ≠ "" →
      routeTimestamp raw = .ok ts → f.size ≤ MAX_FILE_SIZE →
      ALLOWED_TYPES.contains f.type = true →
      ALLOWED_EXTENSIONS.contains (extnameLower f.name) = false →
      validateRequest ⟨some f, some raw, det⟩ =
        .error ⟨400, "Invalid file extension", none⟩) ∧
    (∀ (f : UploadedFile) (det : Option String) (raw : String) (ts : Rx), raw ≠ "" →
      routeTimestamp raw = .ok ts → f.size ≤ MAX_FILE_SIZE →
      ALLOWED_TYPES.contains f.type = true →
      ALLOWED_EXTENSIONS.contains (extnameLower f.name) = true →
      isValidVideoFile det f.content = false →
      validateRequest ⟨some f, some raw, det⟩ =
        .error ⟨400, "Invalid or unsupported video file content.", none⟩) ∧
    (∀ (f : UploadedFile) (det : Option String) (raw : String) (ts : Rx), raw ≠ "" →
      routeTimestamp raw = .ok ts → f.size ≤ MAX_FILE_SIZE →
      ALLOWED_TYPES.contains f.type = true →
      ALLOWED_EXTENSIONS.contains (extnameLower f.name) = true →
      isValidVideoFile det f.content = true → f.name ≠ "" →
      hasTraversal f.name = true →
      validateRequest ⟨some f, some raw, det⟩ =
        .error ⟨400, "Invalid filename - path traversal detected", none⟩) := by
  refine ⟨?_, ?_, ?_, ?_, ?_, ?_⟩
  · intro f det raw msg hraw hts
    simp [validateRequest, hts, hraw]
  · intro f det raw ts hraw hts hsz
    simp [validateRequest, hts, hraw, hsz]
  · intro f det raw ts hraw hts hsz hmime
    have hns : ¬ (MAX_FILE_SIZE < f.size) := Nat.not_lt.mpr hsz
    simp only [List.contains, List.elem_eq_mem, decide_eq_false_iff_not] at hmime
    simp [validateRequest, hts, hraw, hns, hmime]
  · intro f det raw ts hraw hts hsz hmime hext
    have hns : ¬ (MAX_FILE_SIZE < f.size) := Nat.not_lt.mpr hsz
    simp only [List.contains, List.elem_eq_mem, decide_eq_true_eq] at hmime
    simp only [List.contains, List.elem_eq_mem, decide_eq_false_iff_not] at hext
    simp [validateRequest, hts, hraw, hns, hmime, hext]
  · intro f det raw ts hraw hts hsz hmime hext hsniff
    have hns : ¬ (MAX_FILE_SIZE < f.size) := Nat.not_lt.mpr hsz
    simp only [List.contains, List.elem_eq_mem, decide_eq_true_eq] at hmime hext
    simp [validateRequest, hts, hraw, hns, hmime, hext, hsniff]
  · intro f det raw ts hraw hts hsz hmime hext hsniff hname htrav
    have hns : ¬ (MAX_FILE_SIZE < f.size) := Nat.not_lt.mpr hsz
    simp only [List.contains, List.elem_eq_mem, decide_eq_true_eq] at hmime hext
    simp [validateRequest, hts, hraw, hns, hmime, hext, hsniff, hname, htrav]

/-- C4 witness: the ordering facts instantiated at concrete requests. -/
theorem C4_validation_order_witness :
    validateRequest ⟨some ⟨"video.mp4", "video/mp4", 104857601, ftypIsomBuf⟩, some "abc", none⟩ =
      .error ⟨400, "Invalid timestamp format", none⟩ ∧
    validateRequest ⟨some ⟨"video.mp4", "video/mp4", 104857601, ftypIsomBuf⟩, some "10", none⟩ =
      .error ⟨413, "File too large. Maximum size is 100MB.", none⟩ ∧
    validateRequest ⟨some ⟨"video.mp4", "text/plain", 1000, ftypIsomBuf⟩, some "10", none⟩ =
      .error ⟨400, "Invalid file type", none⟩ :=
  ⟨C4_validation_order.1 ⟨"video.mp4", "video/mp4", 104857601, ftypIsomBuf⟩ none "abc"
      "Invalid timestamp format" (by decide) (by decide),
   C4_validation_order.2.1 ⟨"video.mp4", "video/mp4", 104857601, ftypIsomBuf⟩ none "10"
      ⟨10, 1⟩ (by decide) (by decide) (by decide),
   C4_validation_order.2.2.1 ⟨"video.mp4", "text/plain", 1000, ftypIsomBuf⟩ none "10"
      ⟨10, 1⟩ (by decide) (by decide) (by decide) (by decide)⟩

end LampCover

namespace LampCover

/-! ## Orchestrator execution (route.ts lines 214-394)

After admission the handler increments the active-request counter and runs
the body inside `try { ... } finally { activeRequests-- }`.  The body
validates, creates the workspace (line 299, `mkdtemp`), writes the input
file (line 322), and only then enters the inner
`try { media operations } catch { classify } finally { rm tempDir }`
(lines 324-390).  A failure of the input write therefore propagates out of
the handler with the workspace left behind: the rm-finally is not yet
installed at that point.  External outcomes are oracle values. -/

inductive Eff where
  | incActive
  | decActive
  | mkdtemp
  | rmTemp
  deriving DecidableEq, Repr

/-- Outcome of one `executeFFmpeg` run: clean exit, or a rejection whose
message is classified by the orchestrator.  A run that exceeds its timeout
is killed and rejects with `executeFFmpegTimeoutMsg`. -/
inductive MediaOutcome where
  | ok
  | err (msg : String)
  deriving DecidableEq, Repr

/-- Oracle for the external effects of one request. -/
structure MediaOracle where
  writeOk : Bool
  extractRun : MediaOutcome
  coverRun : MediaOutcome
  deriving DecidableEq, Repr

/-- `extractFrame` as invoked by the handler: the numeric seek gate
(ffmpeg-secure.ts line 163) throws before any spawn; otherwise the run
outcome is the subprocess outcome.  The constant gates (frames 1,
quality 2, timeout 30000) and the path checks on workspace-internal paths
always pass. -/
def extractFrameResult (seek : Rx) (run : MediaOutcome) : MediaOutcome :=
  if !(extractFrameSeekOk seek) then .err invalidSeekMsg else run

/-- The inner try/catch (route.ts lines 324-382): frame extraction, then
cover embedding, then the 200 response; a thrown error is classified. -/
def innerTry (seek : Rx) (o : MediaOracle) : HttpResp :=
  match extractFrameResult seek o.extractRun with
  | .err msg => classifyErrorResp msg
  | .ok =>
    match o.coverRun with
    | .err msg => classifyErrorResp msg
    | .ok => ⟨200, "output bytes", none⟩

/-- The handler body after admission: validation, workspace creation,
input write, inner try with its rm-finally.  `none` means an uncaught
exception propagates out of the handler (the write failure). -/
def postBody (r : UploadRequest) (o : MediaOracle) : Option HttpResp × List Eff :=
  match validateRequest r with
  | .error resp => (some resp, [])
  | .ok v =>
    if o.writeOk then
      (some (innerTry (roundDouble v.timestamp) o), [Eff.mkdtemp, Eff.rmTemp])
    else
      (none, [Eff.mkdtemp])

/-- The admitted request end to end: counter increment, body, and the
outer finally that decrements the counter on every exit (route.ts lines
214 and 391-394). -/
def postRun (r : UploadRequest) (o : MediaOracle) : Option HttpResp × List Eff :=
  ((postBody r o).1, Eff.incActive :: (postBody r o).2 ++ [Eff.decActive])

end LampCover

namespace LampCover

/-!
Claim C2.  The orchestrator classifies an error as a timeout exactly when
its message contains the substring `"timeout"` (route.ts line 371) — but
the rejection produced by the killed, timed-out subprocess carries the
message `"FFmpeg operation timed out"` (ffmpeg-secure.ts line 131), which
does not contain `"timeout"`.  A timed-out media operation therefore
reaches the generic branch and the handler responds 500, not 408: the
dedicated 408 branch is unreachable for the invoker's own timeout error.
-/

/-- C2: the timeout message lacks the substring `"timeout"`, so it is
classified as a generic processing error (500); classification yields 408
exactly when the message contains `"timeout"`; end to end, an admitted
valid request whose frame extraction times out receives HTTP 500, not the
claimed 408. -/
theorem C2_timeout_classification :
    containsSub executeFFmpegTimeoutMsg.data "timeout".data = false ∧
    classifyErrorResp executeFFmpegTimeoutMsg = ⟨500, "Processing error", none⟩ ∧
    (∀ msg : String,
      (classifyErrorResp msg).status = 408 ↔ containsSub msg.data "timeout".data = true) ∧
    (postRun ⟨some ⟨"video.mp4", "video/mp4", 1000, ftypIsomBuf⟩, some "10", none⟩
        ⟨true, .err executeFFmpegTimeoutMsg, .ok⟩).1 =
      some ⟨500, "Processing error", none⟩ := by
  refine ⟨by decide, by decide, ?_, by decide⟩
  intro msg
  unfold classifyErrorResp
  by_cases h : containsSub msg.data "timeout".data = true
  · simp [h]
  · rw [if_neg (by simp [h])]
    constructor
    · intro hc
      exfalso
      revert hc
      split
      · intro hc; simp at hc
      · split
        · intro hc; simp at hc
        · intro hc; simp at hc
    · intro hc
      exact absurd hc h

/-- C2 witness: the classification criterion applied to a concrete
message that does contain `"timeout"`. -/
theorem C2_timeout_classification_witness :
    (classifyErrorResp "operation timeout").status = 408 ↔
      containsSub ("operation timeout").data "timeout".data = true :=
  C2_timeout_classification.2.2.1 "operation timeout"

/-!
Claim C3.  The counter half of the claim holds: the outer finally restores
the active-request counter on every exit path.  The workspace half fails:
the input write (route.ts line 322) runs after `mkdtemp` (line 299) but
before the inner try installs the rm-finally (line 383), so a write
failure (for example, disk full) leaks the workspace directory.
-/

/-- C3: for a valid admitted request whose input-file write fails, the
handler creates the workspace but never removes it (and the exception
escapes the handler), contradicting cleanup-on-every-exit-path; the
counter, by contrast, is incremented and decremented exactly once on every
path, and on every path through the inner try the workspace is removed iff
it was created. -/
theorem C3_cleanup_and_counter :
    (postRun ⟨some ⟨"video.mp4", "video/mp4", 1000, ftypIsomBuf⟩, some "10", none⟩
        ⟨false, .ok, .ok⟩ =
      (none, [Eff.incActive, Eff.mkdtemp, Eff.decActive]) ∧
     Eff.rmTemp ∉
      (postRun ⟨some ⟨"video.mp4", "video/mp4", 1000, ftypIsomBuf⟩, some "10", none⟩
        ⟨false, .ok, .ok⟩).2) ∧
    (∀ (r : UploadRequest) (o : MediaOracle),
      (postRun r o).2.count Eff.incActive = 1 ∧ (postRun r o).2.count Eff.decActive = 1) ∧
    (∀ (r : UploadRequest) (o : MediaOracle), o.writeOk = true →
      (Eff.mkdtemp ∈ (postRun r o).2 ↔ Eff.rmTemp ∈ (postRun r o).2)) := by
  refine ⟨⟨by decide, by decide⟩, ?_, ?_⟩
  · intro r o
    unfold postRun postBody
    cases validateRequest r with
    | error resp => simp
    | ok v =>
      cases hw : o.writeOk <;> simp [List.count_cons, List.count_append]
  · intro r o hw
    unfold postRun postBody
    cases validateRequest r with
    | error resp => simp
    | ok v => simp [hw]

/-- C3 witness: the counter-balance and cleanup facts applied to one
concrete admitted request. -/
theorem C3_cleanup_and_counter_witness :
    ((postRun ⟨some ⟨"video.mp4", "video/mp4", 1000, ftypIsomBuf⟩, some "10", none⟩
        ⟨true, .ok, .ok⟩).2.count Eff.incActive = 1 ∧
     (postRun ⟨some ⟨"video.mp4", "video/mp4", 1000, ftypIsomBuf⟩, some "10", none⟩
        ⟨true, .ok, .ok⟩).2.count Eff.decActive = 1) ∧
    (Eff.mkdtemp ∈
      (postRun ⟨some ⟨"video.mp4", "video/mp4", 1000, ftypIsomBuf⟩, some "10", none⟩
        ⟨true, .ok, .ok⟩).2 ↔
     Eff.rmTemp ∈
      (postRun ⟨some ⟨"video.mp4", "video/mp4", 1000, ftypIsomBuf⟩, some "10", none⟩
        ⟨true, .ok, .ok⟩).2) :=
  ⟨C3_cleanup_and_counter.2.1 ⟨some ⟨"video.mp4", "video/mp4", 1000, ftypIsomBuf⟩, some "10", none⟩
      ⟨true, .ok, .ok⟩,
   C3_cleanup_and_counter.2.2 ⟨some ⟨"video.mp4", "video/mp4", 1000, ftypIsomBuf⟩, some "10", none⟩
      ⟨true, .ok, .ok⟩ rfl⟩

end LampCover

namespace LampCover

/-! ## Admission control: concurrency cap (route.ts lines 26-27, 209-214,
391-394) -/

def MAX_CONCURRENT_REQUESTS : Nat := 5

def busyResp : HttpResp := ⟨503, "Server busy, please try again later", none⟩

/-- The check-then-increment gate: `if (activeRequests >=
MAX_CONCURRENT_REQUESTS) return 503; activeRequests++`.  The two steps are
atomic on the single-threaded event loop (no await between them). -/
def concurrencyGate (active : Nat) : Except HttpResp Nat :=
  if MAX_CONCURRENT_REQUESTS ≤ active then .error busyResp else .ok (active + 1)

/-- The outer finally: `activeRequests--`. -/
def releaseActive (active : Nat) : Nat := active - 1

inductive ConcEvent where
  | arrive
  | complete
  deriving DecidableEq, Repr

/-- Counter evolution under an arrival (admitted or turned away) or a
completion of an admitted request. -/
def concStep (c : Nat) : ConcEvent → Nat
  | .arrive =>
    match concurrencyGate c with
    | .error _ => c
    | .ok c2 => c2
  | .complete => releaseActive c

/-- Counter after a sequence of events, starting idle. -/
def concRun (events : List ConcEvent) : Nat := events.foldl concStep 0

theorem concStep_le {c : Nat} (h : c ≤ MAX_CONCURRENT_REQUESTS) (e : ConcEvent) :
    concStep c e ≤ MAX_CONCURRENT_REQUESTS := by
  cases e with
  | arrive =>
    simp only [concStep, concurrencyGate]
    by_cases hc : MAX_CONCURRENT_REQUESTS ≤ c
    · simp only [if_pos hc]
      exact h
    · simp only [if_neg hc]
      unfold MAX_CONCURRENT_REQUESTS at hc ⊢
      omega
  | complete =>
    simp only [concStep, releaseActive]
    unfold MAX_CONCURRENT_REQUESTS at h ⊢
    omega

theorem concRun_aux : ∀ (events : List ConcEvent) (c : Nat),
    c ≤ MAX_CONCURRENT_REQUESTS →
    events.foldl concStep c ≤ MAX_CONCURRENT_REQUESTS := by
  intro events
  induction events with
  | nil => intro c h; simpa using h
  | cons e es ih =>
    intro c h
    exact ih (concStep c e) (concStep_le h e)

/-!
Claim C5.  The gate turns a 6th concurrent request away with 503, no
`Retry-After`, and no counter change; the counter never exceeds 5; and
after any completion a subsequent arrival is admitted.
-/

/-- C5: starting idle, the active-request counter never exceeds 5 under
any arrival/completion sequence; at 5 in flight an arrival is rejected
with the 503 busy response (no `Retry-After`, counter unchanged); after
one of the 5 completes, the next arrival is admitted. -/
theorem C5_concurrency_cap :
    (∀ events : List ConcEvent, concRun events ≤ MAX_CONCURRENT_REQUESTS) ∧
    concurrencyGate 5 = .error busyResp ∧
    busyResp.status = 503 ∧
    busyResp.retryAfter = none ∧
    concStep 5 .arrive = 5 ∧
    concurrencyGate (releaseActive 5) = .ok 5 := by
  exact ⟨fun events => concRun_aux events 0 (by decide), by decide, by decide,
    by decide, by decide, by decide⟩

/-- C5 witness: the invariant applied to a concrete event sequence of
seven arrivals (the counter sticks at 5). -/
theorem C5_concurrency_cap_witness :
    concRun [ConcEvent.arrive, .arrive, .arrive, .arrive, .arrive, .arrive, .arrive] ≤
      MAX_CONCURRENT_REQUESTS :=
  C5_concurrency_cap.1 [ConcEvent.arrive, .arrive, .arrive, .arrive, .arrive, .arrive, .arrive]

end LampCover

namespace LampCover

/-! ## Admission control: per-client rate limiting (route.ts lines 11-111,
196-207)

State for one client identifier.  The store is modelled per client as
`Option RateLimitEntry` (`none` = no entry yet); `checkRateLimit` returns
the outcome together with the store content after the call — the
blocked-rejection path returns without writing (route.ts line 77), the
other paths call `rateLimitStore.set`. -/

structure RateLimitEntry where
  requests : Nat
  lastReset : Nat
  blocked : Bool
  blockUntil : Option Nat
  deriving DecidableEq, Repr

def MAX_REQUESTS_PER_MINUTE : Nat := 10

def BLOCK_DURATION_MS : Nat := 900000

/-- Outcome of `checkRateLimit`: `allowed`, and `resetTime` when
rejected. -/
structure RLResult where
  allowed : Bool
  resetTime : Option Nat
  deriving DecidableEq, Repr

/-- JavaScript truthiness of the optional `blockUntil` combined with
`now < blockUntil` (route.ts line 76): `entry.blockUntil && now <
entry.blockUntil`. -/
def blockActive (blockUntil : Option Nat) (now : Nat) : Bool :=
  match blockUntil with
  | some bu => bu != 0 && decide (now < bu)
  | none => false

/-- `checkRateLimit(ip)` at time `now` (route.ts lines 67-111). -/
def checkRateLimit (store : Option RateLimitEntry) (now : Nat) :
    RLResult × Option RateLimitEntry :=
  let entry := store.getD ⟨0, now, false, none⟩
  if entry.blocked && blockActive entry.blockUntil now then
    (⟨false, entry.blockUntil⟩, store)
  else
    let entry1 := if 60000 < now - entry.lastReset then
        (⟨0, now, false, none⟩ : RateLimitEntry)
      else entry
    if MAX_REQUESTS_PER_MINUTE ≤ entry1.requests then
      (⟨false, some (now + BLOCK_DURATION_MS)⟩,
       some ⟨entry1.requests, entry1.lastReset, true, some (now + BLOCK_DURATION_MS)⟩)
    else
      (⟨true, none⟩,
       some ⟨entry1.requests + 1, entry1.lastReset, entry1.blocked, entry1.blockUntil⟩)

/-- The 429 response assembled by `POST` (route.ts lines 198-205):
`Retry-After` is `Math.ceil((resetTime - now) / 1000)` when `resetTime` is
truthy, else the fallback `900`. -/
def rateLimitResponse (res : RLResult) (now : Nat) : HttpResp :=
  ⟨429, "Rate limit exceeded",
   some (match res.resetTime with
     | some rt => if rt != 0 then (rt - now + 999) / 1000 else 900
     | none => 900)⟩

/-- Outcomes of a sequence of requests from one client at the given
times, threading the store. -/
def rlRun (store : Option RateLimitEntry) (times : List Nat) :
    Option RateLimitEntry × List RLResult :=
  match times with
  | [] => (store, [])
  | t :: ts =>
    let step := checkRateLimit store t
    let rest := rlRun step.2 ts
    (rest.1, step.1 :: rest.2)

theorem checkRateLimit_allowed {k t1 now : Nat} (hw : now - t1 ≤ 60000)
    (hk : k < MAX_REQUESTS_PER_MINUTE) :
    checkRateLimit (some ⟨k, t1, false, none⟩) now =
      (⟨true, none⟩, some ⟨k + 1, t1, false, none⟩) := by
  unfold checkRateLimit blockActive
  have h1 : ¬ (60000 < now - t1) := by omega
  have h2 : ¬ (MAX_REQUESTS_PER_MINUTE ≤ k) := by omega
  simp [h1, h2]

theorem rlRun_window : ∀ (ts : List Nat) (k t1 : Nat),
    (∀ t ∈ ts, t - t1 ≤ 60000) → k + ts.length ≤ MAX_REQUESTS_PER_MINUTE →
    rlRun (some ⟨k, t1, false, none⟩) ts =
      (some ⟨k + ts.length, t1, false, none⟩, List.replicate ts.length ⟨true, none⟩) := by
  intro ts
  induction ts with
  | nil => intro k t1 _ _; simp [rlRun]
  | cons t ts ih =>
    intro k t1 hw hk
    have hstep : checkRateLimit (some ⟨k, t1, false, none⟩) t =
        (⟨true, none⟩, some ⟨k + 1, t1, false, none⟩) :=
      checkRateLimit_allowed (hw t (by simp)) (by simp at hk; omega)
    have hrest := ih (k + 1) t1 (fun x hx => hw x (by simp [hx])) (by simp at hk; omega)
    have harith : k + 1 + ts.length = k + (ts.length + 1) := by omega
    simp only [rlRun, hstep, hrest, List.length_cons, List.replicate_succ, harith]

end LampCover

namespace LampCover

/-!
Claim C6.  Eleven requests from one client inside one 60-second window:
ten admitted, the eleventh rejected with 429 and `Retry-After` equal to
the 900 seconds until the block expiry, and every further request before
the expiry rejected with 429 — the blocked check (route.ts line 76)
precedes the window reset (line 85), so an elapsed count window does not
lift the block.
-/

/-- C6: for requests at times `t1, rest..., t11` within one 60-second
window (`rest` of length 9), the first ten are admitted, the eleventh is
rejected with `Retry-After` of 900 seconds until the 15-minute block
expiry, and a request at any `t12` before that expiry — regardless of the
count window — is rejected with 429. -/
theorem C6_rate_limit (t1 : Nat) (rest : List Nat) (t11 t12 : Nat)
    (hlen : rest.length = 9)
    (hw : ∀ t ∈ rest, t - t1 ≤ 60000)
    (hw11 : t11 - t1 ≤ 60000)
    (h12 : t12 < t11 + BLOCK_DURATION_MS) :
    ((rlRun none (t1 :: rest)).2.all fun r => r.allowed) = true ∧
    (checkRateLimit (rlRun none (t1 :: rest)).1 t11).1 =
      ⟨false, some (t11 + BLOCK_DURATION_MS)⟩ ∧
    rateLimitResponse (checkRateLimit (rlRun none (t1 :: rest)).1 t11).1 t11 =
      ⟨429, "Rate limit exceeded", some 900⟩ ∧
    (checkRateLimit (checkRateLimit (rlRun none (t1 :: rest)).1 t11).2 t12).1.allowed =
      false ∧
    (rateLimitResponse
      (checkRateLimit (checkRateLimit (rlRun none (t1 :: rest)).1 t11).2 t12).1 t12).status =
      429 := by
  have hfirst : checkRateLimit none t1 = (⟨true, none⟩, some ⟨1, t1, false, none⟩) := by
    simp [checkRateLimit, blockActive, MAX_REQUESTS_PER_MINUTE]
  have hwin := rlRun_window rest 1 t1 hw (by rw [hlen]; decide)
  have hrun : rlRun none (t1 :: rest) =
      (some ⟨1 + rest.length, t1, false, none⟩,
       RLResult.mk true none :: List.replicate rest.length ⟨true, none⟩) := by
    simp only [rlRun, hfirst, hwin]
  have hstore : (rlRun none (t1 :: rest)).1 = some ⟨10, t1, false, none⟩ := by
    rw [hrun, hlen]
  have h11 : checkRateLimit (some ⟨10, t1, false, none⟩) t11 =
      (⟨false, some (t11 + BLOCK_DURATION_MS)⟩,
       some ⟨10, t1, true, some (t11 + BLOCK_DURATION_MS)⟩) := by
    have h1 : ¬ (60000 < t11 - t1) := by omega
    simp [checkRateLimit, blockActive, MAX_REQUESTS_PER_MINUTE, h1]
  have hbu : t11 + BLOCK_DURATION_MS ≠ 0 := by
    unfold BLOCK_DURATION_MS
    omega
  refine ⟨?_, ?_, ?_, ?_, ?_⟩
  · rw [hrun]
    simp [List.all_eq_true, List.eq_of_mem_replicate]
  · rw [hstore, h11]
  · rw [hstore, h11]
    simp only [rateLimitResponse, bne_iff_ne, ne_eq, hbu, not_false_eq_true, if_pos,
      Nat.add_sub_cancel_left, BLOCK_DURATION_MS]
    have hbu2 : ¬ (t11 + 900000 = 0) := by omega
    simp [hbu2]
  · rw [hstore, h11]
    simp [checkRateLimit, blockActive, hbu, h12]
  · rfl

/-- C6 witness: the eleven-request scenario at concrete times. -/
theorem C6_rate_limit_witness :
    ((rlRun none ((0 : Nat) :: List.replicate 9 0)).2.all fun r => r.allowed) = true ∧
    (checkRateLimit (rlRun none ((0 : Nat) :: List.replicate 9 0)).1 0).1 =
      ⟨false, some 900000⟩ :=
  ⟨(C6_rate_limit 0 (List.replicate 9 0) 0 899999 (by decide)
      (fun t ht => by simp [List.eq_of_mem_replicate ht]) (by decide) (by decide)).1,
   (C6_rate_limit 0 (List.replicate 9 0) 0 899999 (by decide)
      (fun t ht => by simp [List.eq_of_mem_replicate ht]) (by decide) (by decide)).2.1⟩

end LampCover

namespace LampCover

/-! ## Process invocation flag checking (ffmpeg-secure.ts lines 89-116)

`executeFFmpeg` spawns the binary on an argument vector (`spawn` without a
shell).  Its sanitizing map checks an argument only when it starts with
`-` AND sits at index 0 or an odd index; a flag outside the allow-list at
such a position throws before the spawn, while a `-`-prefixed argument at
a positive even index is passed through unchecked. -/

/-- JavaScript `arg.startsWith('-')`, at the character level. -/
def startsWithDash (s : String) : Bool :=
  match s.data with
  | [] => false
  | c :: _ => c == '-'

def safeFlags : List String :=
  ["-i", "-ss", "-vframes", "-q:v", "-y", "-map", "-c:v", "-c:a", "-c:s", "-c:v:1",
   "-disposition:v:1", "-metadata:s:v:1", "-f", "-"]

/-- The argument scan of `executeFFmpeg` (lines 98-112), with the index
bookkeeping of the source `map`; the first offending flag aborts with an
error, mirroring the thrown exception. -/
def checkArgsFrom : Nat → List String → Except String Unit
  | _, [] => .ok ()
  | i, a :: rest =>
    if startsWithDash a && (i == 0 || i % 2 == 1) then
      if safeFlags.contains a then checkArgsFrom (i + 1) rest
      else .error ("Unsafe FFmpeg flag: " ++ a)
    else checkArgsFrom (i + 1) rest

def sanitizeArgsCheck (args : List String) : Except String Unit := checkArgsFrom 0 args

/-- The argument vector built by `extractFrame` (ffmpeg-secure.ts lines
191-198); the numeric values arrive as their decimal strings. -/
def extractFrameArgs (input ss vframes qv output : String) : List String :=
  ["-i", input, "-ss", ss, "-vframes", vframes, "-q:v", qv, "-y", output]

/-- The argument vector built by `addCoverImage` (ffmpeg-secure.ts lines
233-246). -/
def addCoverImageArgs (videoInput imageInput output : String) : List String :=
  ["-i", videoInput, "-i", imageInput, "-map", "0", "-map", "1:v:0",
   "-c:v", "copy", "-c:a", "copy", "-c:s", "copy", "-c:v:1", "mjpeg",
   "-disposition:v:1", "attached_pic", "-metadata:s:v:1", "title=Cover", "-y", output]

theorem checkArgsFrom_rejects : ∀ (l1 : List String) (i : Nat) (a : String) (l2 : List String),
    (i + l1.length = 0 ∨ (i + l1.length) % 2 = 1) →
    startsWithDash a = true → safeFlags.contains a = false →
    ∃ msg, checkArgsFrom i (l1 ++ a :: l2) = .error msg := by
  intro l1
  induction l1 with
  | nil =>
    intro i a l2 hpar ha hs
    have hpb : (i == 0 || i % 2 == 1) = true := by
      simp only [List.length_nil, Nat.add_zero] at hpar
      rcases hpar with h | h <;> simp [h]
    have hs2 : ¬ (a ∈ safeFlags) := by
      simpa only [List.contains, List.elem_eq_mem, decide_eq_false_iff_not] using hs
    refine ⟨"Unsafe FFmpeg flag: " ++ a, ?_⟩
    simp [checkArgsFrom, ha, hpb, hs2]
  | cons x xs ih =>
    intro i a l2 hpar ha hs
    have hrec := ih (i + 1) a l2 (by simp only [List.length_cons] at hpar; omega) ha hs
    obtain ⟨msg, hmsg⟩ := hrec
    simp only [List.cons_append, checkArgsFrom]
    by_cases hc : (startsWithDash x && (i == 0 || i % 2 == 1)) = true
    · rw [if_pos hc]
      by_cases hx : safeFlags.contains x = true
      · rw [if_pos hx]
        exact ⟨msg, hmsg⟩
      · rw [if_neg hx]
        exact ⟨_, rfl⟩
    · rw [if_neg hc]
      exact ⟨msg, hmsg⟩

end LampCover

namespace LampCover

/-- A checked position holding an allow-listed flag passes through. -/
theorem checkArgsFrom_flag_ok {i : Nat} {a : String} {rest : List String}
    (hs : safeFlags.contains a = true) :
    checkArgsFrom i (a :: rest) = checkArgsFrom (i + 1) rest := by
  simp only [checkArgsFrom]
  by_cases hc : (startsWithDash a && (i == 0 || i % 2 == 1)) = true
  · rw [if_pos hc, if_pos hs]
  · rw [if_neg hc]

/-- A non-`-` argument is never checked. -/
theorem checkArgsFrom_skip_value {i : Nat} {a : String} {rest : List String}
    (ha : startsWithDash a = false) :
    checkArgsFrom i (a :: rest) = checkArgsFrom (i + 1) rest := by
  simp [checkArgsFrom, ha]

/-!
Claim C7.  Both operations build argument vectors whose flags all lie in
the fixed allow-list, and each invocation is an argument vector (a spawn
on a string list, never a shell string).  The enforcement half of the
claim fails, though: the scan only checks index 0 and the odd indices, so
an argument list carrying an unknown flag at a positive even index is not
rejected.
-/

/-- C7 counterexample: the argument list `["-i", "in.mp4", "-af",
"volume=0", "out.mp4"]` carries the non-allow-listed flag `"-af"` at index
2 (even), yet the sanitizing scan accepts it, so the process would be
spawned rather than rejected. -/
theorem C7_allowlist_counterexample :
    sanitizeArgsCheck ["-i", "in.mp4", "-af", "volume=0", "out.mp4"] = .ok () ∧
    safeFlags.contains "-af" = false := by
  decide

/-- C7 (amended): every flag in the vectors actually built by
`extractFrame` and `addCoverImage` is in the allow-list, and both vectors
pass the scan; the scan rejects a non-allow-listed flag exactly when it
sits at index 0 or an odd index. -/
theorem C7_allowlist :
    (∀ input ss vframes qv output : String,
      startsWithDash input = false → startsWithDash ss = false →
      startsWithDash vframes = false → startsWithDash qv = false →
      startsWithDash output = false →
      sanitizeArgsCheck (extractFrameArgs input ss vframes qv output) = .ok () ∧
      ∀ a ∈ extractFrameArgs input ss vframes qv output,
        startsWithDash a = true → safeFlags.contains a = true) ∧
    (∀ videoInput imageInput output : String,
      startsWithDash videoInput = false → startsWithDash imageInput = false →
      startsWithDash output = false →
      sanitizeArgsCheck (addCoverImageArgs videoInput imageInput output) = .ok () ∧
      ∀ a ∈ addCoverImageArgs videoInput imageInput output,
        startsWithDash a = true → safeFlags.contains a = true) ∧
    (∀ (l1 : List String) (a : String) (l2 : List String),
      (l1.length = 0 ∨ l1.length % 2 = 1) → startsWithDash a = true →
      safeFlags.contains a = false →
      ∃ msg, sanitizeArgsCheck (l1 ++ a :: l2) = .error msg) := by
  refine ⟨?_, ?_, ?_⟩
  · intro input ss vframes qv output h1 h2 h3 h4 h5
    constructor
    · show checkArgsFrom 0 _ = .ok ()
      rw [extractFrameArgs, checkArgsFrom_flag_ok (by decide), checkArgsFrom_skip_value h1,
        checkArgsFrom_flag_ok (by decide), checkArgsFrom_skip_value h2,
        checkArgsFrom_flag_ok (by decide), checkArgsFrom_skip_value h3,
        checkArgsFrom_flag_ok (by decide), checkArgsFrom_skip_value h4,
        checkArgsFrom_flag_ok (by decide), checkArgsFrom_skip_value h5]
      rfl
    · intro a ha hstart
      simp only [extractFrameArgs, List.mem_cons, List.not_mem_nil, or_false] at ha
      rcases ha with rfl | rfl | rfl | rfl | rfl | rfl | rfl | rfl | rfl | rfl <;>
        first
          | decide
          | exact absurd hstart (by decide)
          | simp_all
  · intro videoInput imageInput output h1 h2 h3
    constructor
    · show checkArgsFrom 0 _ = .ok ()
      rw [addCoverImageArgs, checkArgsFrom_flag_ok (by decide), checkArgsFrom_skip_value h1,
        checkArgsFrom_flag_ok (by decide), checkArgsFrom_skip_value h2,
        checkArgsFrom_flag_ok (by decide), checkArgsFrom_skip_value (by decide),
        checkArgsFrom_flag_ok (by decide), checkArgsFrom_skip_value (by decide),
        checkArgsFrom_flag_ok (by decide), checkArgsFrom_skip_value (by decide),
        checkArgsFrom_flag_ok (by decide), checkArgsFrom_skip_value (by decide),
        checkArgsFrom_flag_ok (by decide), checkArgsFrom_skip_value (by decide),
        checkArgsFrom_flag_ok (by decide), checkArgsFrom_skip_value (by decide),
        checkArgsFrom_flag_ok (by decide), checkArgsFrom_skip_value (by decide),
        checkArgsFrom_flag_ok (by decide), checkArgsFrom_skip_value (by decide),
        checkArgsFrom_flag_ok (by decide), checkArgsFrom_skip_value h3]
      rfl
    · intro a ha hstart
      simp only [addCoverImageArgs, List.mem_cons, List.not_mem_nil, or_false] at ha
      rcases ha with rfl | rfl | rfl | rfl | rfl | rfl | rfl | rfl | rfl | rfl | rfl | rfl |
        rfl | rfl | rfl | rfl | rfl | rfl | rfl | rfl | rfl | rfl <;>
        first
          | decide
          | exact absurd hstart (by decide)
          | simp_all
  · intro l1 a l2 hpar ha hs
    exact checkArgsFrom_rejects l1 0 a l2 (by simpa using hpar) ha hs

/-- C7 witness: the amended facts at concrete arguments. -/
theorem C7_allowlist_witness :
    sanitizeArgsCheck (extractFrameArgs "/tmp/w/in.mp4" "10" "1" "2" "/tmp/w/cover.jpg") =
      .ok () ∧
    sanitizeArgsCheck (addCoverImageArgs "/tmp/w/in.mp4" "/tmp/w/cover.jpg" "/tmp/w/out.mp4") =
      .ok () ∧
    ∃ msg, sanitizeArgsCheck (["-drawtext"] : List String) = .error msg :=
  ⟨(C7_allowlist.1 "/tmp/w/in.mp4" "10" "1" "2" "/tmp/w/cover.jpg"
      (by decide) (by decide) (by decide) (by decide) (by decide)).1,
   (C7_allowlist.2.1 "/tmp/w/in.mp4" "/tmp/w/cover.jpg" "/tmp/w/out.mp4"
      (by decide) (by decide) (by decide)).1,
   C7_allowlist.2.2 [] "-drawtext" [] (Or.inl rfl) (by decide) (by decide)⟩

end LampCover
